import Mathlib

/-!
Verification development for `scripts/coverage_report_jenkins.py`.

The Python script is shallowly embedded: pure string manipulation becomes
Lean functions on `String`/`List Char`; the HTTP layer (artifact download
and HEAD existence checks) and the remote shell become explicit oracles
passed as function arguments; raised exceptions become `Except`/`Option`
error values; the sequence of externally visible actions of the
orchestrator is returned as an explicit trace.
-/

/-! ## Basic helpers -/

/-- Models Python `str.strip()` whitespace set (space, tab, LF, CR, VT, FF). -/
def pySpace (c : Char) : Bool :=
  c = ' ' || c = '\t' || c = '\n' || c = '\r' || c = Char.ofNat 11 || c = Char.ofNat 12

/-- Models Python `str.strip()`: remove leading and trailing whitespace. -/
def stripPy (s : String) : String :=
  String.mk (((s.data.dropWhile pySpace).reverse.dropWhile pySpace).reverse)

/-- Splitting at every dot, with Python `str.split` semantics: the empty
string yields one empty component, and consecutive dots yield empty
components. -/
def splitOnDot : List Char → List (List Char)
  | [] => [[]]
  | c :: cs =>
    if c = '.' then [] :: splitOnDot cs
    else
      match splitOnDot cs with
      | [] => [[c]]
      | t :: ts => (c :: t) :: ts

/-- Numeric value of one version component (a non-digit or empty component
counts as zero). -/
def compNat (l : List Char) : Nat :=
  if l ≠ [] ∧ l.all (fun c => c.isDigit) then
    l.foldl (fun acc c => acc * 10 + (c.toNat - 48)) 0
  else 0

/-- Modelled from the spec: `cfme.utils.version.Version` (not under `src/`).
The spec describes a version as "a dotted numeric string compared
lexicographically by parsed major/minor (and further components as
tiebreakers)".  `verComponents` parses the dot-separated numeric components. -/
def verComponents (s : String) : List Nat :=
  (splitOnDot s.data).map compNat

/-- Modelled from the spec: strict lexicographic "less than" on parsed
numeric component lists, used by `Version.__lt__`. -/
def natListLt : List Nat → List Nat → Bool
  | [], [] => false
  | [], _ :: _ => true
  | _ :: _, [] => false
  | a :: as, b :: bs => if a < b then true else if b < a then false else natListLt as bs

/-- Modelled from the spec: `Version(x) < Version(y)` in the source. -/
def versionLt (x y : String) : Bool :=
  natListLt (verComponents x) (verComponents y)

/-! ## `group_list_dict_by` (source lines 32-51)

A Python dictionary is modelled as a function to `Option`; the keyword
lookup `d[by]` applied to each list element is modelled by the projection
function `f`. -/

/-- Embeds `group_list_dict_by`: fold the list into an index, each entry
overwriting the previous binding of its key. -/
def group_list_dict_by {κ δ : Type} [DecidableEq κ] (ld : List δ) (f : δ → κ) :
    κ → Option δ :=
  ld.foldl (fun acc d => fun k => if k = f d then some d else acc k) (fun _ => none)

/-! ## Build data model and the selection loop of `main` (source lines 398-450)

A Jenkins build is its number together with its artifact list (each artifact
a dictionary with `fileName` and `relativePath`).  The HTTP side effects of
the loop are oracles: `download n p` is the text of `download_artifact` for
build `n` and relative path `p`, and `check n p` is the boolean result of
`check_artifact` for build `n` and relative path `p`. -/

structure Artifact where
  fileName : String
  relativePath : String
  deriving DecidableEq

structure BuildInfo where
  number : Nat
  artifacts : List Artifact
  deriving DecidableEq

/-- The `artifacts = group_list_dict_by(artifacts, 'fileName')` step. -/
def groupedArtifacts (b : BuildInfo) : String → Option Artifact :=
  group_list_dict_by b.artifacts (fun a => a.fileName)

/-- What the body of the selection loop decides for one build: `skip` models
every `continue`, `stop` models the `break` on a strictly lower version, and
`eligible` models `eligible_build_numbers.add(build_number)`. -/
inductive ScanOutcome where
  | skip : ScanOutcome
  | stop : ScanOutcome
  | eligible : ScanOutcome
  deriving DecidableEq

/-- Embeds the body of the loop over `build_numbers` in `main`, one build at
a time, mirroring the source's order of checks. -/
def classify (target : String) (download : Nat → String → String)
    (check : Nat → String → Bool) (b : BuildInfo) : ScanOutcome :=
  if b.artifacts = [] then ScanOutcome.skip
  else
    match groupedArtifacts b "appliance_version" with
    | none => ScanOutcome.skip
    | some av =>
      let v := stripPy (download b.number av.relativePath)
      if v = "" then ScanOutcome.skip
      else if versionLt v target then ScanOutcome.stop
      else
        match groupedArtifacts b "coverage-results.tgz" with
        | none => ScanOutcome.skip
        | some cov =>
          if check b.number cov.relativePath = false then ScanOutcome.skip
          else if v = target then ScanOutcome.eligible
          else ScanOutcome.skip

/-- The Python local variable `artifacts` as left behind by the loop: unset
if no build was examined, the raw (empty) artifact list if the last examined
build had none, or the grouped dictionary otherwise.  The orchestrator later
reads this leaked variable (source line 471). -/
inductive ArtVar where
  | unset : ArtVar
  | raw : List Artifact → ArtVar
  | grouped : (String → Option Artifact) → ArtVar

/-- Value the variable `artifacts` takes while build `b` is examined. -/
def buildArtVar (b : BuildInfo) : ArtVar :=
  if b.artifacts = [] then ArtVar.raw b.artifacts
  else ArtVar.grouped (groupedArtifacts b)

/-- Later iterations overwrite the variable; an early exit keeps the value of
the iteration that broke out. -/
def combineVar (first later : ArtVar) : ArtVar :=
  match later with
  | ArtVar.unset => first
  | v => v

/-- Python `set.add`: a set of build numbers as a duplicate-free list. -/
def insertIfAbsent (n : Nat) (l : List Nat) : List Nat :=
  if n ∈ l then l else l ++ [n]

/-- The selection loop of `main`: returns the eligible build numbers (as the
duplicate-free list underlying the Python set) together with the leaked
`artifacts` variable. -/
def selectLoop (target : String) (download : Nat → String → String)
    (check : Nat → String → Bool) : List BuildInfo → List Nat × ArtVar
  | [] => ([], ArtVar.unset)
  | b :: rest =>
    match classify target download check b with
    | ScanOutcome.stop => ([], buildArtVar b)
    | ScanOutcome.eligible =>
      let r := selectLoop target download check rest
      (insertIfAbsent b.number r.1, combineVar (buildArtVar b) r.2)
    | ScanOutcome.skip =>
      let r := selectLoop target download check rest
      (r.1, combineVar (buildArtVar b) r.2)

/-- The eligible build set computed by `main` for a build list. -/
def mainSelect (target : String) (download : Nat → String → String)
    (check : Nat → String → Bool) (builds : List BuildInfo) : Finset Nat :=
  (selectLoop target download check builds).1.toFinset

/-- `eligible_build_numbers = sorted(eligible_build_numbers)` (line 450);
`sorted` of a set produces its elements in ascending order. -/
def mainEligibleSorted (target : String) (download : Nat → String → String)
    (check : Nat → String → Bool) (builds : List BuildInfo) : List Nat :=
  List.insertionSort (· ≤ ·) (selectLoop target download check builds).1

/-- The build triggers the early `break`: it declares a version (non-empty
after stripping) that compares strictly less than the target. -/
def stopsAt (target : String) (download : Nat → String → String)
    (check : Nat → String → Bool) (b : BuildInfo) : Bool :=
  classify target download check b = ScanOutcome.stop

/-- Claim C1's per-build eligibility conditions exactly as the claim states
them: (a) an `appliance_version` artifact exists, (b) its downloaded content,
stripped, equals the target, (c) a `coverage-results.tgz` artifact exists,
(d) the existence check on it succeeds. -/
def c1ClaimEligibleBuild (target : String) (download : Nat → String → String)
    (check : Nat → String → Bool) (b : BuildInfo) : Bool :=
  match groupedArtifacts b "appliance_version", groupedArtifacts b "coverage-results.tgz" with
  | some av, some cov =>
    stripPy (download b.number av.relativePath) = target && check b.number cov.relativePath
  | _, _ => false

/-- The amended per-build eligibility: as `c1ClaimEligibleBuild` but with the
downloaded content additionally required non-empty after stripping (the code
skips whitespace-only version artifacts before comparing). -/
def specEligibleBuild (target : String) (download : Nat → String → String)
    (check : Nat → String → Bool) (b : BuildInfo) : Bool :=
  match groupedArtifacts b "appliance_version", groupedArtifacts b "coverage-results.tgz" with
  | some av, some cov =>
    stripPy (download b.number av.relativePath) ≠ "" &&
    stripPy (download b.number av.relativePath) = target &&
    check b.number cov.relativePath
  | _, _ => false

/-! ## `gen_project_key` (source lines 126-162) -/

/-- The message of the exception raised for malformed version strings. -/
def invalidVersionMsg (version : String) : String :=
  "Invalid version string given.  Expect #.#[... .#] received: " ++ version

/-- Embeds `gen_project_key`: the regex search for a leading
`(?P<major>\d+)\.(?P<minor>\d+)` is a span of digits, a literal dot, and a
second span of digits (the greedy `\d+` cannot backtrack into a successful
match here, since shortening a maximal digit run exposes a digit, never a
dot).  Failure raises, modelled by `Except.error`. -/
def gen_project_key (name version : String) : Except String String :=
  match version.data.takeWhile (fun c => c.isDigit), version.data.dropWhile (fun c => c.isDigit) with
  | [], _ => Except.error (invalidVersionMsg version)
  | x :: xs, '.' :: rest2 =>
    match rest2.takeWhile (fun c => c.isDigit) with
    | [] => Except.error (invalidVersionMsg version)
    | m :: ms =>
      Except.ok (name ++ "_" ++ String.mk (x :: xs) ++ "_" ++ String.mk (m :: ms)
        ++ "_ruby_coverage")
  | _ :: _, _ => Except.error (invalidVersionMsg version)

/-- The version string starts with two dot-separated numeric components:
a non-empty run of digits, a dot, and at least one further digit. -/
def startsMajorMinor (version : String) : Prop :=
  ∃ (a : List Char) (c : Char) (r : List Char),
    version.data = a ++ '.' :: c :: r ∧ a ≠ [] ∧ (∀ x ∈ a, x.isDigit = true) ∧ c.isDigit = true

/-! ## URL construction (`jenkins_artifact_url`, source lines 54-72)

`urlsplit`/`urlunsplit` are the Python 2.7 standard library functions the
source calls; they are embedded on `List Char` with first-occurrence
splitting expressed through `takeWhile`/`dropWhile`.  `urlsplit` raises
`ValueError("Invalid IPv6 URL")` when the extracted netloc has a `[`
without `]` or vice versa: `urlsplitE` embeds that raise as `Except.error`,
while `urlsplitL` is the parse it returns on the non-raising inputs. -/

/-- Characters permitted in a URL scheme (`scheme_chars` of `urlparse`). -/
def schemeChar (c : Char) : Bool :=
  c.isAlpha || c.isDigit || c = '+' || c = '-' || c = '.'

/-- Characters that terminate the network-location component. -/
def netlocDelim (c : Char) : Bool :=
  c = '/' || c = '?' || c = '#'

structure UrlParts where
  scheme : List Char
  netloc : List Char
  path : List Char
  query : List Char
  fragment : List Char
  deriving DecidableEq

/-- Scheme detection of `urlsplit`: text before the first colon is a scheme
if non-empty, made of scheme characters, and the remainder is not purely
digits (the "not actually a port number" check); `http` before the first
colon is always taken as the scheme (the optimized common case).  The
scheme is lowercased. -/
def splitScheme (url : List Char) : List Char × List Char :=
  match url.dropWhile (fun c => c ≠ ':') with
  | [] => ([], url)
  | _ :: rest =>
    if url.takeWhile (fun c => c ≠ ':') = [] then ([], url)
    else if url.takeWhile (fun c => c ≠ ':') = "http".data
        ∨ ((url.takeWhile (fun c => c ≠ ':')).all schemeChar
          ∧ (rest = [] ∨ ¬ rest.all (fun c => c.isDigit))) then
      ((url.takeWhile (fun c => c ≠ ':')).map Char.toLower, rest)
    else ([], url)

/-- Network-location extraction of `urlsplit`: applies when the remainder
starts with `//`; the netloc runs to the first `/`, `?` or `#`. -/
def splitNetloc (url : List Char) : List Char × List Char :=
  if url.take 2 = ['/', '/'] then
    ((url.drop 2).takeWhile (fun c => !netlocDelim c),
     (url.drop 2).dropWhile (fun c => !netlocDelim c))
  else ([], url)

/-- Models Python `url.split(sep, 1)` guarded by `sep in url`: everything
before the first separator, and everything after it (or nothing). -/
def splitTail (sep : Char) (url : List Char) : List Char × List Char :=
  match url.dropWhile (fun c => c ≠ sep) with
  | [] => (url, [])
  | _ :: rest => (url.takeWhile (fun c => c ≠ sep), rest)

/-- The parse of `urlsplit` of Python 2.7 `urlparse`: scheme, then netloc,
then the fragment split, then the query split.  On inputs where `urlsplit`
raises (see `urlsplitE`) this returns the parse the stdlib computed before
its bracket check; theorems about the source's URLs carry the
`invalidIpv6Netloc ... = false` hypothesis so that they assert nothing at
raising inputs. -/
def urlsplitL (url : List Char) : UrlParts :=
  { scheme := (splitScheme url).1
    netloc := (splitNetloc (splitScheme url).2).1
    path := (splitTail '?' (splitTail '#' (splitNetloc (splitScheme url).2).2).1).1
    query := (splitTail '?' (splitTail '#' (splitNetloc (splitScheme url).2).2).1).2
    fragment := (splitTail '#' (splitNetloc (splitScheme url).2).2).2 }

/-- The mismatched-bracket condition of `urlsplit`:
`('[' in netloc and ']' not in netloc) or (']' in netloc and '[' not in netloc)`,
under which Python 2.7 raises `ValueError("Invalid IPv6 URL")`. -/
def invalidIpv6Netloc (netloc : List Char) : Bool :=
  (netloc.contains '[' && !netloc.contains ']')
    || (netloc.contains ']' && !netloc.contains '[')

/-- Embeds `urlsplit` of Python 2.7 `urlparse` including its error path: the
mismatched-bracket `ValueError` becomes `Except.error`, and every other
input yields the parse `urlsplitL`. -/
def urlsplitE (url : List Char) : Except String UrlParts :=
  if invalidIpv6Netloc (splitNetloc (splitScheme url).2).1 then
    Except.error "Invalid IPv6 URL"
  else Except.ok (urlsplitL url)

/-- Step of `urlunsplit`: prepend `//netloc` when a netloc is present (or the
path itself starts like one), separating it from a relative path. -/
def addNetloc (netloc path : List Char) : List Char :=
  if netloc ≠ [] ∨ path.take 2 = ['/', '/'] then
    ('/' :: '/' :: netloc) ++ (if path ≠ [] ∧ path.take 1 ≠ ['/'] then '/' :: path else path)
  else path

/-- Step of `urlunsplit`: prepend `scheme:` when a scheme is present. -/
def addScheme (scheme url : List Char) : List Char :=
  if scheme ≠ [] then scheme ++ ':' :: url else url

/-- Step of `urlunsplit`: append `?query` when a query is present. -/
def addQuery (query url : List Char) : List Char :=
  if query ≠ [] then url ++ '?' :: query else url

/-- Step of `urlunsplit`: append `#fragment` when a fragment is present. -/
def addFragment (fragment url : List Char) : List Char :=
  if fragment ≠ [] then url ++ '#' :: fragment else url

/-- Embeds `urlunsplit` of Python 2.7 `urlparse`. -/
def urlunsplitL (p : UrlParts) : List Char :=
  addFragment p.fragment (addQuery p.query (addScheme p.scheme (addNetloc p.netloc p.path)))

/-- Embeds `jenkins_artifact_url`: format the artifact URL, split it, embed
`username:token@` in front of the netloc, and unsplit.  On a URL whose
netloc has mismatched brackets, the source propagates the stdlib's
`ValueError` (see `urlsplitE`); this definition is its behaviour on the
non-raising inputs, and `c8_jenkins_artifact_url` both assumes
`invalidIpv6Netloc` is false of the host and proves via `urlsplitE` that
the split raises nothing on the URL the source builds. -/
def jenkins_artifact_url (jenkins_username jenkins_token jenkins_url jenkins_job : String)
    (jenkins_build : Nat) (artifact_path : String) : String :=
  let url := jenkins_url ++ "/job/" ++ jenkins_job ++ "/" ++ toString jenkins_build
    ++ "/artifact/" ++ artifact_path
  let p := urlsplitL url.data
  String.mk (urlunsplitL { p with
    netloc := jenkins_username.data ++ ':' :: jenkins_token.data ++ '@' :: p.netloc })

/-- Embeds `check_artifact` (source lines 98-119): HEAD the artifact URL and
compare the status code with 300.  The HTTP response is the oracle `head`,
mapping a URL to its status code. -/
def check_artifact (head : String → Nat)
    (jenkins_username jenkins_token jenkins_url jenkins_job : String)
    (jenkins_build : Nat) (artifact_path : String) : Bool :=
  head (jenkins_artifact_url jenkins_username jenkins_token jenkins_url jenkins_job
    jenkins_build artifact_path) < 300

/-! ## Remote orchestration (source lines 165-227, 230-377, 452-501)

Externally visible actions are recorded in a trace.  Remote/local command
execution is the oracle `exec : Step → Bool` giving each command's success;
a run is a pair of the trace of actions performed and the error message of
the first raised exception, if any.  Appliance calls (`evmserverd.stop`,
coverage tool installation) and file transfers are trace entries without a
success check, as the source checks none of them. -/

inductive Step where
  | stopEvm : Step
  | installSimplecov : Step
  | uploadMerger : Step
  | run : String → Step
  | runRails : String → Step
  | getFile : String → String → Step
  | putFile : String → String → Step
  | localRun : String → Step
  deriving DecidableEq

/-- A phase result: actions performed, and the raised error if any. -/
def RunResult : Type := List Step × Option String

/-- Sequencing with exception semantics: if `r` raised, nothing further
runs; otherwise the continuation's actions follow `r`'s. -/
def andThen (r : RunResult) (k : Unit → RunResult) : RunResult :=
  match r with
  | (tr, some e) => (tr, some e)
  | (tr, none) => ((tr ++ (k ()).1 : List Step), (k ()).2)

/-- Perform one step whose failure raises `err`. -/
def checkedStep (exec : Step → Bool) (s : Step) (err : String) : RunResult :=
  ([s], if exec s then none else some err)

/-- Perform one step whose result the source never examines. -/
def freeStep (s : Step) : RunResult := ([s], none)

/-- Global `coverage_dir` (source line 25). -/
def coverage_dir : String := "/coverage"

/-- Global `scanner_dir` (source line 27). -/
def scanner_dir : String := "/root/scanner"

/-- Modelled from the spec: `cfme.utils.quote` (not under `src/`); shell
quoting of the download URL.  The claims settled here do not depend on its
escaping, only on it being applied to the URL. -/
def shellQuote (s : String) : String := "\x27" ++ s ++ "\x27"

def mergerRailsCmd : String := "coverage_merger.rb --coverageRoot=" ++ coverage_dir

def lnCmd : String := "ln -s merged/.resultset.json " ++ coverage_dir ++ "/.resultset.json"

def packCmd : String := "cd " ++ coverage_dir ++ "; tar cfz /tmp/merged.tgz merged"

def mkdirCoverageCmd : String := "mkdir -p " ++ coverage_dir

def extractCmd : String :=
  "cd " ++ coverage_dir ++ " && tar xf tmp.tgz --strip-components=1 && rm -f tmp.tgz"

def curlCmd (url : String) : String :=
  "curl -k -o " ++ coverage_dir ++ "/tmp.tgz " ++ shellQuote url

/-- Embeds `merge_coverage_data`: run the merger (failure raises), then
create the symlink — whose result the source does not check (line 205).
The rendering of the failed result object in the message is abstracted to
its fixed prefix. -/
def merge_coverage_data (exec : Step → Bool) : RunResult :=
  andThen (checkedStep exec (Step.runRails mergerRailsCmd) "Failure running the merger - ")
    (fun _ => freeStep (Step.run lnCmd))

/-- Embeds `pull_merged_coverage_data`: pack the merged HTML (failure
raises), fetch it, and decompress locally (`subprocess.check_call` raises on
a non-zero exit). -/
def pull_merged_coverage_data (exec : Step → Bool) (logPath : String) : RunResult :=
  andThen (checkedStep exec (Step.run packCmd) "Could not compress! - ")
    (fun _ => andThen (freeStep (Step.getFile "/tmp/merged.tgz" logPath))
      (fun _ => checkedStep exec
        (Step.localRun ("tar xf " ++ logPath ++ "/merged.tgz -C " ++ logPath))
        "subprocess.CalledProcessError: tar"))

def scannerZip : String := "/root/scanner.zip"

/-- Embeds `install_sonar_scanner`: the five checked shell commands, project
key generation (which raises on a malformed version), and the config upload. -/
def install_sonar_scanner (exec : Step → Bool)
    (project_name project_version scanner_url sdir server_url : String) : RunResult :=
  andThen (checkedStep exec (Step.run ("mkdir -p " ++ sdir))
      ("Could not create sonar scanner directory, " ++ sdir ++ ", on appliance."))
    (fun _ => andThen (checkedStep exec
        (Step.run ("wget -O " ++ scannerZip ++ " " ++ shellQuote scanner_url))
        ("Could not download scanner software, " ++ scanner_url))
      (fun _ => andThen (checkedStep exec
          (Step.run ("unzip -d " ++ sdir ++ " " ++ scannerZip))
          ("Could not extract scanner software, " ++ scannerZip ++ ", to " ++ sdir))
        (fun _ => andThen (checkedStep exec
            (Step.run ("cd " ++ sdir ++ "; mv $(ls)/* ."))
            ("Could not move scanner files into scanner dir, " ++ sdir))
          (fun _ => andThen (checkedStep exec
              (Step.run ("echo \"sonar.host.url=" ++ server_url ++ "\" > "
                ++ sdir ++ "/conf/sonar-scanner.properties"))
              ("Could write scanner conf, " ++ sdir ++ "/conf/sonar-scanner.propertiess"))
            (fun _ =>
              match gen_project_key project_name project_version with
              | Except.error e => ([], some e)
              | Except.ok _ =>
                freeStep (Step.putFile "sonar-project.properties" "/sonar-project.properties"))))))

/-- Embeds `run_sonar_scanner` (failure of the scan raises). -/
def run_sonar_scanner (exec : Step → Bool) (sdir : String) : RunResult :=
  let cmd := "cd /; SONAR_SCANNER_OPTS=\"-Xmx4096m\" " ++ sdir ++ "/bin/sonar-scanner -X"
  checkedStep exec (Step.run cmd) ("sonar scan failed! cmd: " ++ cmd)

/-- Embeds `sonar_scan`: install, then run. -/
def sonar_scan (exec : Step → Bool)
    (project_name project_version scanner_url sdir server_url : String) : RunResult :=
  andThen (install_sonar_scanner exec project_name project_version scanner_url sdir server_url)
    (fun _ => run_sonar_scanner exec sdir)

/-- The `relativePath` the orchestrator loop reads out of the leaked
`artifacts` variable (source line 471); `none` models the uncaught
`KeyError`/`TypeError` when the leftover value has no such entry. -/
def leftoverCovPath (v : ArtVar) : Option String :=
  match v with
  | ArtVar.grouped g => (g "coverage-results.tgz").map (fun a => a.relativePath)
  | _ => none

/-- Embeds one iteration of the download-and-extract loop (lines 467-486):
the download URL is built from the leaked `artifacts` variable, not from the
eligible build's own artifact list. -/
def downloadExtractBuild (exec : Step → Bool) (u t jurl job : String) (v : ArtVar)
    (n : Nat) : RunResult :=
  match leftoverCovPath v with
  | none => ([], some "KeyError: coverage-results.tgz")
  | some p =>
    andThen (checkedStep exec (Step.run (curlCmd (jenkins_artifact_url u t jurl job n p)))
        "Could not download! - ")
      (fun _ => checkedStep exec (Step.run extractCmd) "Could not extract! - ")

/-- The download-and-extract loop over the sorted eligible build numbers. -/
def downloadExtractAll (exec : Step → Bool) (u t jurl job : String) (v : ArtVar)
    (ns : List Nat) : RunResult :=
  ns.foldl (fun acc n => andThen acc (fun _ => downloadExtractBuild exec u t jurl job v n))
    ([], none)

/-- The `ValueError` message for missing credentials (lines 387-389). -/
def credsMsg : String :=
  "--jenkins-user and --jenkins-token not provided and credentials yaml does not " ++
  "contain the jenkins_app entry with user and token"

/-- Embeds `main` (source lines 380-501).  `conf` is the optional
`jenkins_app` credentials entry of the configuration yaml; `target` is
`str(appliance.version).strip()`; `download`/`head` are the HTTP oracles;
`exec` is the command-success oracle; `logPath`, `scanner_url` and
`server_url` stand for `log_path` and the sonarqube globals. -/
def mainRun (user token : String) (conf : Option (String × String)) (jurl job target : String)
    (download : Nat → String → String) (head : String → Nat) (exec : Step → Bool)
    (builds : List BuildInfo) (logPath scanner_url server_url : String) : RunResult :=
  match (if user = "" ∨ token = "" then conf else some (user, token)) with
  | none => ([], some credsMsg)
  | some (u, t) =>
    if builds = [] then ([], some ("No builds for job " ++ job))
    else
      let check := fun (n : Nat) (p : String) => check_artifact head u t jurl job n p
      let r := selectLoop target download check builds
      if r.1 = [] then
        ([], some ("Could not find any coverage reports for " ++ target ++ " in " ++ job))
      else
        andThen (freeStep Step.stopEvm) (fun _ =>
        andThen (freeStep Step.installSimplecov) (fun _ =>
        andThen (freeStep Step.uploadMerger) (fun _ =>
        andThen (checkedStep exec (Step.run mkdirCoverageCmd)
            ("Could not create coverage directory on the appliance: " ++ coverage_dir)) (fun _ =>
        andThen (downloadExtractAll exec u t jurl job r.2 (List.insertionSort (· ≤ ·) r.1)) (fun _ =>
        andThen (merge_coverage_data exec) (fun _ =>
        andThen (pull_merged_coverage_data exec logPath) (fun _ =>
        sonar_scan exec "CFME" target scanner_url scanner_dir server_url)))))))

/-! ## Concrete fixtures used by counterexamples and witnesses -/

/-- Download oracle: build 1 declares version `1.0`, build 4 a whitespace-only
version, all other builds `2.0`. -/
def d0 : Nat → String → String :=
  fun n _ => if n = 1 then "1.0" else if n = 4 then "   " else "2.0"

/-- Download oracle returning whitespace for every build. -/
def dBlank : Nat → String → String := fun _ _ => "   "

/-- Existence-check oracle that always succeeds. -/
def c0 : Nat → String → Bool := fun _ _ => true

/-- HEAD oracle that always answers 200. -/
def h200 : String → Nat := fun _ => 200

def bA : BuildInfo := ⟨1, [⟨"appliance_version", "a1"⟩, ⟨"coverage-results.tgz", "c1path"⟩]⟩

def bB : BuildInfo := ⟨2, [⟨"appliance_version", "a2"⟩, ⟨"coverage-results.tgz", "c2path"⟩]⟩

def bC : BuildInfo := ⟨3, [⟨"appliance_version", "a3"⟩, ⟨"coverage-results.tgz", "c3path"⟩]⟩

def bWhite : BuildInfo := ⟨4, [⟨"appliance_version", "a4"⟩]⟩

def bSeven : BuildInfo := ⟨7, [⟨"appliance_version", "a7"⟩, ⟨"coverage-results.tgz", "c7path"⟩]⟩

/-- Command oracle in which every command succeeds. -/
def execOk : Step → Bool := fun _ => true

/-- A build with no artifacts at all. -/
def bNoArts : BuildInfo := ⟨9, []⟩

/-- Command oracle failing exactly on the symlink command. -/
def execLnFail : Step → Bool := fun s => !(decide (s = Step.run lnCmd))

/-- Command oracle failing exactly on the merger command. -/
def execRailsFail : Step → Bool := fun s => !(decide (s = Step.runRails mergerRailsCmd))

/-- Command oracle failing exactly on the packing command. -/
def execPackFail : Step → Bool := fun s => !(decide (s = Step.run packCmd))

/-! # Theorems -/

/-! ## Version model facts -/

theorem natListLt_irrefl (l : List Nat) : natListLt l l = false := by
  induction l with
  | nil => rfl
  | cons a as ih => simp [natListLt, ih]

theorem versionLt_irrefl (s : String) : versionLt s s = false :=
  natListLt_irrefl _

/-! ## C9: `group_list_dict_by` -/

theorem group_list_dict_by_nil {κ δ : Type} [DecidableEq κ] (f : δ → κ) (k : κ) :
    group_list_dict_by ([] : List δ) f k = none := rfl

theorem group_list_dict_by_append_singleton {κ δ : Type} [DecidableEq κ]
    (ld : List δ) (f : δ → κ) (d : δ) (k : κ) :
    group_list_dict_by (ld ++ [d]) f k =
      if k = f d then some d else group_list_dict_by ld f k := by
  simp [group_list_dict_by, List.foldl_append]

/-- C9: the index built by `group_list_dict_by` has exactly the keys taken by
the projection, and each key maps to the last element of the list having it
(later entries overwrite earlier ones). -/
theorem group_list_dict_by_spec {κ δ : Type} [DecidableEq κ]
    (ld : List δ) (f : δ → κ) (k : κ) :
    group_list_dict_by ld f k = (ld.filter (fun d => f d = k)).getLast?
    ∧ ((group_list_dict_by ld f k).isSome ↔ k ∈ ld.map f) := by
  have main : ∀ l : List δ, group_list_dict_by l f k = (l.filter (fun d => f d = k)).getLast? := by
    intro l
    induction l using List.reverseRecOn with
    | nil => simp [group_list_dict_by_nil]
    | append_singleton xs d ih =>
      rw [group_list_dict_by_append_singleton]
      by_cases h : k = f d
      · simp [List.filter_append, h.symm, List.getLast?_append]
      · have h2 : ¬ (f d = k) := fun hh => h hh.symm
        simp [List.filter_append, h2, h, ih, List.getLast?_append]
  refine ⟨main ld, ?_⟩
  rw [main ld]
  rw [Option.isSome_iff_ne_none, ne_eq, List.getLast?_eq_none_iff, List.filter_eq_nil_iff]
  simp only [List.mem_map, decide_eq_true_eq]
  push_neg
  constructor
  · rintro ⟨a, ha, hfa⟩
    exact ⟨a, ha, hfa⟩
  · rintro ⟨a, ha, hfa⟩
    exact ⟨a, ha, hfa⟩

/-! ## C3: `gen_project_key` -/

theorem gen_project_key_ok_starts {name version key : String}
    (h : gen_project_key name version = Except.ok key) : startsMajorMinor version := by
  unfold gen_project_key at h
  split at h
  · exact absurd h (by simp)
  case _ x xs rest2 heq1 heq2 =>
    split at h
    · exact absurd h (by simp)
    case _ m ms heq3 =>
      refine ⟨x :: xs, m, ms ++ rest2.dropWhile (fun c => c.isDigit), ?_, by simp, ?_, ?_⟩
      · have hvd : version.data =
            version.data.takeWhile (fun c => c.isDigit)
              ++ version.data.dropWhile (fun c => c.isDigit) :=
          (List.takeWhile_append_dropWhile _ _).symm
        have hr2 : rest2 = (m :: ms) ++ rest2.dropWhile (fun c => c.isDigit) := by
          conv_lhs => rw [← List.takeWhile_append_dropWhile (fun c => c.isDigit) rest2]
          rw [heq3]
        conv_lhs => rw [hvd]
        rw [heq1, heq2]
        conv_lhs => rw [hr2]
        simp
      · intro y hy
        exact List.mem_takeWhile_imp (heq1 ▸ hy)
      · have : m ∈ rest2.takeWhile (fun c => c.isDigit) := by
          rw [heq3]; exact List.mem_cons_self _ _
        exact List.mem_takeWhile_imp this
  · exact absurd h (by simp)

/-- C3: `gen_project_key("CFME", "5.9.0.21")` is `CFME_5_9_ruby_coverage`, and
any version string not starting with two dot-separated numeric components
makes it raise the descriptive invalid-version exception. -/
theorem c3_gen_project_key :
    gen_project_key "CFME" "5.9.0.21" = Except.ok "CFME_5_9_ruby_coverage"
    ∧ ∀ name version : String, ¬ startsMajorMinor version →
        gen_project_key name version = Except.error (invalidVersionMsg version) := by
  constructor
  · rfl
  · intro name version h
    rcases hg : gen_project_key name version with e | key
    · -- every error carries the invalid-version message
      unfold gen_project_key at hg
      split at hg
      · exact hg.symm
      · split at hg
        · exact hg.symm
        · exact absurd hg (by simp)
      · exact hg.symm
    · exact absurd (gen_project_key_ok_starts hg) h

/-- Witness for C3 at a concrete malformed version string. -/
theorem c3_gen_project_key_witness :
    gen_project_key "CFME" "" = Except.error (invalidVersionMsg "")
    ∧ gen_project_key "CFME" "5.9.0.21" = Except.ok "CFME_5_9_ruby_coverage" := by
  refine ⟨c3_gen_project_key.2 "CFME" "" ?_, c3_gen_project_key.1⟩
  rintro ⟨a, c, r, heq, -, -, -⟩
  have : ([] : List Char) = a ++ '.' :: c :: r := heq
  exact absurd this.symm (by simp)

/-! ## C6: `check_artifact` status threshold -/

/-- C6 counterexample: a 302 redirect makes `check_artifact` return `false`,
and a 100 informational status makes it return `true`; both contradict
"true exactly for the 2xx and 3xx range". -/
theorem c6_check_artifact_cex :
    (¬ (check_artifact (fun _ => 302) "u" "t" "http://h" "j" 1 "a" = true
        ↔ (200 ≤ 302 ∧ 302 ≤ 399)))
    ∧ (¬ (check_artifact (fun _ => 100) "u" "t" "http://h" "j" 1 "a" = true
        ↔ (200 ≤ 100 ∧ 100 ≤ 399))) := by
  constructor
  · intro h
    have := h.mpr (by norm_num)
    revert this
    decide
  · intro h
    have h1 : check_artifact (fun _ => 100) "u" "t" "http://h" "j" 1 "a" = true := by decide
    have := h.mp h1
    omega

/-- C6 amended: `check_artifact` returns `true` exactly when the HEAD status
of the artifact URL is strictly below 300 (informational and success codes;
redirects yield `false`). -/
theorem c6_check_artifact_amended (head : String → Nat) (u t jurl job : String)
    (n : Nat) (p : String) :
    check_artifact head u t jurl job n p = true
      ↔ head (jenkins_artifact_url u t jurl job n p) < 300 := by
  simp [check_artifact]

/-! ## Build selection: C1, C2, C10 -/

theorem groupedArtifacts_nil {b : BuildInfo} (h : b.artifacts = []) (k : String) :
    groupedArtifacts b k = none := by
  rw [groupedArtifacts, h]
  rfl

theorem toFinset_insertIfAbsent (n : Nat) (l : List Nat) :
    (insertIfAbsent n l).toFinset = insert n l.toFinset := by
  unfold insertIfAbsent
  split
  · next h =>
    ext m
    simp only [List.mem_toFinset, Finset.mem_insert]
    constructor
    · intro hm
      exact Or.inr hm
    · rintro (rfl | hm)
      · exact h
      · exact hm
  · ext m
    simp [or_comm]

/-- The loop body adds a build to the eligible set exactly when the amended
per-build conditions hold. -/
theorem classify_eligible_iff (target : String) (download : Nat → String → String)
    (check : Nat → String → Bool) (b : BuildInfo) :
    classify target download check b = ScanOutcome.eligible
      ↔ specEligibleBuild target download check b = true := by
  unfold classify specEligibleBuild
  by_cases hA : b.artifacts = []
  · simp [hA, groupedArtifacts_nil hA]
  · cases hav : groupedArtifacts b "appliance_version" with
    | none => simp [hA, hav]
    | some av =>
      cases hcov : groupedArtifacts b "coverage-results.tgz" with
      | none =>
        by_cases hvE : stripPy (download b.number av.relativePath) = "" <;>
          by_cases hlt : versionLt (stripPy (download b.number av.relativePath)) target = true <;>
            simp [hA, hav, hcov, hvE, hlt]
      | some cov =>
        by_cases hvE : stripPy (download b.number av.relativePath) = ""
        · simp [hA, hav, hcov, hvE]
        · by_cases hlt : versionLt (stripPy (download b.number av.relativePath)) target = true
          · have hne : ¬ stripPy (download b.number av.relativePath) = target := by
              intro he
              rw [he, versionLt_irrefl] at hlt
              exact Bool.false_ne_true hlt
            simp [hA, hav, hcov, hvE, hlt, hne]
          · by_cases hchk : check b.number cov.relativePath = false
            · simp [hA, hav, hcov, hvE, hlt, hchk]
            · by_cases hvt : stripPy (download b.number av.relativePath) = target
              · have htne : ¬ target = "" := hvt ▸ hvE
                simp [hA, hav, hcov, hvE, hlt, hchk, hvt, htne, versionLt_irrefl]
              · simp [hA, hav, hcov, hvE, hlt, hchk, hvt]

/-- On the builds reached before the early stop, the eligible set collects
exactly the builds satisfying the amended per-build conditions. -/
theorem selectLoop_fst_spec (target : String) (download : Nat → String → String)
    (check : Nat → String → Bool) (builds : List BuildInfo) :
    (selectLoop target download check builds).1.toFinset =
      (((builds.takeWhile (fun b => !stopsAt target download check b)).filter
        (specEligibleBuild target download check)).map (fun b => b.number)).toFinset := by
  induction builds with
  | nil => simp [selectLoop]
  | cons b rest ih =>
    cases hcl : classify target download check b with
    | stop =>
      have hs : stopsAt target download check b = true := by
        simp [stopsAt, hcl]
      simp [selectLoop, hcl, List.takeWhile_cons, hs]
    | eligible =>
      have hs : stopsAt target download check b = false := by
        simp [stopsAt, hcl]
      have he : specEligibleBuild target download check b = true :=
        (classify_eligible_iff target download check b).mp hcl
      simp [selectLoop, hcl, List.takeWhile_cons, hs, he, toFinset_insertIfAbsent, ih]
    | skip =>
      have hs : stopsAt target download check b = false := by
        simp [stopsAt, hcl]
      have he : specEligibleBuild target download check b = false := by
        rcases Bool.eq_false_or_eq_true (specEligibleBuild target download check b) with h | h
        · exact absurd ((classify_eligible_iff target download check b).mpr h) (by simp [hcl])
        · exact h
      simp [selectLoop, hcl, List.takeWhile_cons, hs, he, ih]

/-- The eligible list of a scan that hits a stopping build is that of the
prefix before it. -/
theorem selectLoop_append_stop (target : String) (download : Nat → String → String)
    (check : Nat → String → Bool) (post : List BuildInfo) (bstop : BuildInfo)
    (hcl : classify target download check bstop = ScanOutcome.stop) :
    ∀ pre : List BuildInfo,
      (selectLoop target download check (pre ++ bstop :: post)).1 =
        (selectLoop target download check pre).1
  | [] => by simp [selectLoop, hcl]
  | x :: rest => by
    have ih := selectLoop_append_stop target download check post bstop hcl rest
    cases hx : classify target download check x with
    | stop => simp [selectLoop, hx]
    | eligible => simp [selectLoop, hx, ih]
    | skip => simp [selectLoop, hx, ih]

/-- C1 counterexample: with target `2.0`, a newer build declaring `1.0`
triggers the break before an older build satisfying all four of the claim's
conditions is seen; and with an empty target, a build whose version artifact
strips to the empty string satisfies the claim's four conditions yet is
skipped. -/
theorem c1_build_selection_cex :
    mainSelect "2.0" d0 c0 [bA, bB] ≠
      ((([bA, bB]).filter (c1ClaimEligibleBuild "2.0" d0 c0)).map
        (fun b => b.number)).toFinset
    ∧ mainSelect "" dBlank c0 [bSeven] ≠
      ((([bSeven]).filter (c1ClaimEligibleBuild "" dBlank c0)).map
        (fun b => b.number)).toFinset := by
  constructor
  · have h1 : (selectLoop "2.0" d0 c0 [bA, bB]).1 = [] := by decide
    have h2 : (([bA, bB]).filter (c1ClaimEligibleBuild "2.0" d0 c0)).map
        (fun b => b.number) = [2] := by decide
    rw [mainSelect, h1, h2]
    intro hh
    have h3 : (2 : Nat) ∈ ([2] : List Nat).toFinset := by simp
    rw [← hh] at h3
    simp at h3
  · have h1 : (selectLoop "" dBlank c0 [bSeven]).1 = [] := by decide
    have h2 : (([bSeven]).filter (c1ClaimEligibleBuild "" dBlank c0)).map
        (fun b => b.number) = [7] := by decide
    rw [mainSelect, h1, h2]
    intro hh
    have h3 : (7 : Nat) ∈ ([7] : List Nat).toFinset := by simp
    rw [← hh] at h3
    simp at h3

/-- C1 amended: the eligible set contains exactly the builds, among those
scanned before the early stop, that have an `appliance_version` artifact
whose downloaded content strips to a non-empty string equal to the target,
have a `coverage-results.tgz` artifact, and pass the existence check; the
returned list is sorted ascending and carries exactly that set. -/
theorem c1_build_selection_amended (target : String) (download : Nat → String → String)
    (check : Nat → String → Bool) (builds : List BuildInfo) :
    mainSelect target download check builds =
      (((builds.takeWhile (fun b => !stopsAt target download check b)).filter
        (specEligibleBuild target download check)).map (fun b => b.number)).toFinset
    ∧ List.Sorted (· ≤ ·) (mainEligibleSorted target download check builds)
    ∧ (mainEligibleSorted target download check builds).toFinset =
        mainSelect target download check builds := by
  refine ⟨selectLoop_fst_spec target download check builds, ?_, ?_⟩
  · exact List.sorted_insertionSort (· ≤ ·) _
  · exact List.toFinset_eq_of_perm _ _ (List.perm_insertionSort (· ≤ ·) _)

/-- C2: once any build triggers the early stop, every remaining older build
is ignored — the eligible set is exactly that of the preceding prefix. -/
theorem c2_early_stop (target : String) (download : Nat → String → String)
    (check : Nat → String → Bool) (pre post : List BuildInfo) (bstop : BuildInfo)
    (h : stopsAt target download check bstop = true) :
    mainSelect target download check (pre ++ bstop :: post) =
      mainSelect target download check pre := by
  have hcl : classify target download check bstop = ScanOutcome.stop := of_decide_eq_true h
  unfold mainSelect
  rw [selectLoop_append_stop target download check post bstop hcl pre]

/-- Witness for C2: the newest build is eligible, the next declares `1.0`
and stops the scan, and an otherwise fully eligible older build is ignored. -/
theorem c2_early_stop_witness :
    stopsAt "2.0" d0 c0 bA = true
    ∧ mainSelect "2.0" d0 c0 ([bB] ++ bA :: [bC]) = mainSelect "2.0" d0 c0 [bB]
    ∧ specEligibleBuild "2.0" d0 c0 bC = true
    ∧ (selectLoop "2.0" d0 c0 ([bB] ++ bA :: [bC])).1 = [2] := by
  refine ⟨by decide, c2_early_stop "2.0" d0 c0 [bB] [bC] bA (by decide), by decide, by decide⟩

/-- A build with a whitespace-only version artifact is classified `skip`. -/
theorem classify_empty_version_skip (target : String) (download : Nat → String → String)
    (check : Nat → String → Bool) (b : BuildInfo) (av : Artifact)
    (hav : groupedArtifacts b "appliance_version" = some av)
    (hempty : stripPy (download b.number av.relativePath) = "") :
    classify target download check b = ScanOutcome.skip := by
  have hA : ¬ b.artifacts = [] := by
    intro h
    rw [groupedArtifacts_nil h] at hav
    exact Option.noConfusion hav
  unfold classify
  rw [if_neg hA, hav]
  simp [hempty]

/-- The eligible list of a scan containing a skipped build is that of the
list with the build removed. -/
theorem selectLoop_append_skip (target : String) (download : Nat → String → String)
    (check : Nat → String → Bool) (l2 : List BuildInfo) (b : BuildInfo)
    (hcl : classify target download check b = ScanOutcome.skip) :
    ∀ l1 : List BuildInfo,
      (selectLoop target download check (l1 ++ b :: l2)).1 =
        (selectLoop target download check (l1 ++ l2)).1
  | [] => by simp [selectLoop, hcl]
  | x :: rest => by
    have ih := selectLoop_append_skip target download check l2 b hcl rest
    cases hx : classify target download check x with
    | stop => simp [selectLoop, hx]
    | eligible => simp [selectLoop, hx, ih]
    | skip => simp [selectLoop, hx, ih]

/-- C10: a build whose `appliance_version` artifact strips to the empty
string is skipped: it never triggers the early stop, and the eligible set is
as if the build were absent from the list. -/
theorem c10_empty_version_skipped (target : String) (download : Nat → String → String)
    (check : Nat → String → Bool) (l1 l2 : List BuildInfo) (b : BuildInfo) (av : Artifact)
    (hav : groupedArtifacts b "appliance_version" = some av)
    (hempty : stripPy (download b.number av.relativePath) = "") :
    mainSelect target download check (l1 ++ b :: l2) = mainSelect target download check (l1 ++ l2)
    ∧ stopsAt target download check b = false := by
  have hcl := classify_empty_version_skip target download check b av hav hempty
  constructor
  · unfold mainSelect
    rw [selectLoop_append_skip target download check l2 b hcl l1]
  · simp [stopsAt, hcl]

/-- Witness for C10 at a concrete build list containing a build with a
whitespace-only version artifact. -/
theorem c10_empty_version_skipped_witness :
    mainSelect "2.0" d0 c0 ([bB] ++ bWhite :: [bC]) = mainSelect "2.0" d0 c0 ([bB] ++ [bC])
    ∧ stopsAt "2.0" d0 c0 bWhite = false := by
  exact c10_empty_version_skipped "2.0" d0 c0 [bB] [bC] bWhite
    ⟨"appliance_version", "a4"⟩ (by decide) (by decide)

/-! ## C8: `jenkins_artifact_url` -/

theorem string_ext {a b : String} (h : a.data = b.data) : a = b := by
  cases a
  cases b
  exact congrArg String.mk h

theorem sdata_append (a b : String) : (a ++ b).data = a.data ++ b.data := by
  cases a
  cases b
  rfl

theorem takeWhile_append_cons {α : Type} (p : α → Bool) (xs : List α) (y : α) (ys : List α)
    (hxs : ∀ x ∈ xs, p x = true) (hy : p y = false) :
    (xs ++ y :: ys).takeWhile p = xs ∧ (xs ++ y :: ys).dropWhile p = y :: ys := by
  induction xs with
  | nil => simp [List.takeWhile_cons, List.dropWhile_cons, hy]
  | cons a as ih =>
    have ha : p a = true := hxs a (by simp)
    have ih2 := ih (fun x hx => hxs x (by simp [hx]))
    simp [List.takeWhile_cons, List.dropWhile_cons, ha, ih2.1, ih2.2]

theorem takeWhile_all {α : Type} (p : α → Bool) (l : List α)
    (h : ∀ x ∈ l, p x = true) :
    l.takeWhile p = l ∧ l.dropWhile p = [] := by
  induction l with
  | nil => simp
  | cons a as ih =>
    have ha : p a = true := h a (by simp)
    have ih2 := ih (fun x hx => h x (by simp [hx]))
    simp [List.takeWhile_cons, List.dropWhile_cons, ha, ih2.1, ih2.2]

theorem splitTail_no_sep (sep : Char) (l : List Char) (h : ∀ c ∈ l, ¬ c = sep) :
    splitTail sep l = (l, []) := by
  have h2 : ∀ c ∈ l, (decide (c ≠ sep)) = true := by
    intro c hc
    simpa using h c hc
  have := takeWhile_all (fun c => c ≠ sep) l h2
  unfold splitTail
  rw [this.2]

/-- Splitting a well-formed absolute URL `scheme://netloc+rest` where the
netloc is delimiter-free and the rest is empty or starts with a slash and
contains no fragment or query separator. -/
theorem urlsplitL_of_shape (scheme netloc rest : List Char)
    (hs1 : scheme ≠ []) (hs2 : ∀ c ∈ scheme, schemeChar c = true)
    (hnet : ∀ c ∈ netloc, netlocDelim c = false)
    (hrest : rest = [] ∨ ∃ r, rest = '/' :: r)
    (hrest2 : ∀ c ∈ rest, ¬ c = '#' ∧ ¬ c = '?') :
    urlsplitL (scheme ++ ':' :: '/' :: '/' :: (netloc ++ rest)) =
      { scheme := scheme.map Char.toLower, netloc := netloc, path := rest,
        query := [], fragment := [] } := by
  have hscolon : ∀ c ∈ scheme, (decide (c ≠ ':')) = true := by
    intro c hc
    have := hs2 c hc
    simp only [decide_eq_true_eq, ne_eq]
    intro hcc
    rw [hcc] at this
    exact absurd this (by decide)
  have hsplit := takeWhile_append_cons (fun c => c ≠ ':') scheme ':'
    ('/' :: '/' :: (netloc ++ rest)) hscolon (by decide)
  have hnotdigits : ('/' :: '/' :: (netloc ++ rest)).all (fun c => c.isDigit) = false := by
    rw [List.all_cons]
    have : ('/' : Char).isDigit = false := by decide
    rw [this]
    rfl
  have hschemeStep : splitScheme (scheme ++ ':' :: '/' :: '/' :: (netloc ++ rest)) =
      (scheme.map Char.toLower, '/' :: '/' :: (netloc ++ rest)) := by
    unfold splitScheme
    rw [hsplit.2]
    simp only
    rw [hsplit.1]
    rw [if_neg hs1]
    rw [if_pos]
    right
    constructor
    · exact List.all_eq_true.mpr hs2
    · right
      rw [hnotdigits]
      exact Bool.false_ne_true
  have hnetTake : (netloc ++ rest).takeWhile (fun c => !netlocDelim c) = netloc
      ∧ (netloc ++ rest).dropWhile (fun c => !netlocDelim c) = rest := by
    have hnet2 : ∀ c ∈ netloc, (!netlocDelim c) = true := by
      intro c hc
      rw [hnet c hc]
      rfl
    rcases hrest with hE | ⟨r, hr⟩
    · rw [hE, List.append_nil]
      exact takeWhile_all _ _ hnet2
    · rw [hr]
      exact takeWhile_append_cons _ _ _ _ hnet2 (by decide)
  have hnetStep : splitNetloc ('/' :: '/' :: (netloc ++ rest)) = (netloc, rest) := by
    have htake : List.take 2 ('/' :: '/' :: (netloc ++ rest)) = ['/', '/'] := rfl
    have hdrop : List.drop 2 ('/' :: '/' :: (netloc ++ rest)) = netloc ++ rest := rfl
    unfold splitNetloc
    rw [htake, if_pos rfl, hdrop, hnetTake.1, hnetTake.2]
  have hfragStep : splitTail '#' rest = (rest, []) :=
    splitTail_no_sep '#' rest (fun c hc => (hrest2 c hc).1)
  have hqueryStep : splitTail '?' rest = (rest, []) :=
    splitTail_no_sep '?' rest (fun c hc => (hrest2 c hc).2)
  unfold urlsplitL
  rw [hschemeStep]
  dsimp only
  rw [hnetStep]
  dsimp only
  rw [hfragStep]
  dsimp only
  rw [hqueryStep]

/-- Unsplitting scheme, non-empty netloc and an absolute-or-empty path with
no query and no fragment. -/
theorem urlunsplitL_of_shape (scheme netloc rest : List Char)
    (hs : scheme ≠ []) (hn : netloc ≠ [])
    (hrest : rest = [] ∨ ∃ r, rest = '/' :: r) :
    urlunsplitL
        { scheme := scheme, netloc := netloc, path := rest,
          query := [], fragment := [] } =
      scheme ++ ':' :: '/' :: '/' :: (netloc ++ rest) := by
  have hinner : (if rest ≠ [] ∧ rest.take 1 ≠ ['/'] then '/' :: rest else rest) = rest := by
    rcases hrest with hE | ⟨r, hr⟩
    · rw [if_neg]
      simp [hE]
    · rw [if_neg]
      simp [hr]
  have h1 : addNetloc netloc rest = '/' :: '/' :: (netloc ++ rest) := by
    unfold addNetloc
    rw [if_pos (Or.inl hn), hinner]
    simp
  have h2 : addScheme scheme ('/' :: '/' :: (netloc ++ rest)) =
      scheme ++ ':' :: '/' :: '/' :: (netloc ++ rest) := by
    unfold addScheme
    rw [if_pos hs]
  unfold urlunsplitL addQuery addFragment
  dsimp only
  rw [h1, h2]
  simp

theorem digitChar_isDigit (m : Nat) (h : m < 10) : (Nat.digitChar m).isDigit = true := by
  interval_cases m <;> decide

theorem toDigitsCore_digits (fuel : Nat) :
    ∀ (n : Nat) (ds : List Char), (∀ c ∈ ds, c.isDigit = true) →
      ∀ c ∈ Nat.toDigitsCore 10 fuel n ds, c.isDigit = true := by
  induction fuel with
  | zero =>
    intro n ds hds c hc
    rw [Nat.toDigitsCore] at hc
    exact hds c hc
  | succ fuel ih =>
    intro n ds hds c hc
    rw [Nat.toDigitsCore] at hc
    have hd : ∀ x ∈ (Nat.digitChar (n % 10) :: ds), x.isDigit = true := by
      intro x hx
      rcases List.mem_cons.mp hx with rfl | hx2
      · exact digitChar_isDigit _ (Nat.mod_lt _ (by norm_num))
      · exact hds x hx2
    by_cases h0 : n / 10 = 0
    · rw [if_pos h0] at hc
      exact hd c hc
    · rw [if_neg h0] at hc
      exact ih (n / 10) _ hd c hc

/-- Every character of the decimal rendering of a build number is a digit. -/
theorem toString_nat_digits (n : Nat) : ∀ c ∈ (toString n).data, c.isDigit = true := by
  intro c hc
  have h1 : (toString n).data = Nat.toDigitsCore 10 (n + 1) n [] := rfl
  rw [h1] at hc
  exact toDigitsCore_digits (n + 1) n [] (by simp) c hc

theorem no_hash_question_of_digit {c : Char} (h : c.isDigit = true) :
    ¬ c = '#' ∧ ¬ c = '?' := by
  constructor
  · intro he
    rw [he] at h
    exact absurd h (by decide)
  · intro he
    rw [he] at h
    exact absurd h (by decide)

/-- A split whose netloc passes the bracket check returns its parse rather
than raising. -/
theorem urlsplitE_eq_ok (url : List Char)
    (h : invalidIpv6Netloc (urlsplitL url).netloc = false) :
    urlsplitE url = Except.ok (urlsplitL url) := by
  unfold urlsplitE
  have h2 : invalidIpv6Netloc (splitNetloc (splitScheme url).2).1 = false := h
  rw [h2]
  simp

/-- C8: for a well-formed base URL `scheme://host` with optional absolute
base path and a host without mismatched brackets (so `urlsplit` does not
raise its IPv6 `ValueError` — the final conjunct proves the split returns a
parse), the artifact URL is the base with `username:token@` prefixed to
the authority and `/job/{job}/{build}/artifact/{path}` appended to the path;
re-splitting the result confirms the authority and path components. -/
theorem c8_jenkins_artifact_url (user token scheme host bpath job apath : String) (build : Nat)
    (hs1 : scheme.data ≠ [])
    (hs2 : ∀ c ∈ scheme.data, schemeChar c = true)
    (hs3 : scheme.data.map Char.toLower = scheme.data)
    (hhost : ∀ c ∈ host.data, netlocDelim c = false)
    (hbr : invalidIpv6Netloc host.data = false)
    (hbpath : bpath.data = [] ∨ ∃ r, bpath.data = '/' :: r)
    (hbp2 : ∀ c ∈ bpath.data, ¬ c = '#' ∧ ¬ c = '?')
    (hjob : ∀ c ∈ job.data, ¬ c = '#' ∧ ¬ c = '?')
    (hapath : ∀ c ∈ apath.data, ¬ c = '#' ∧ ¬ c = '?')
    (huser : ∀ c ∈ user.data, netlocDelim c = false)
    (htoken : ∀ c ∈ token.data, netlocDelim c = false) :
    jenkins_artifact_url user token (scheme ++ "://" ++ host ++ bpath) job build apath
      = scheme ++ "://" ++ user ++ ":" ++ token ++ "@" ++ host ++ bpath
        ++ "/job/" ++ job ++ "/" ++ toString build ++ "/artifact/" ++ apath
    ∧ (urlsplitL (jenkins_artifact_url user token (scheme ++ "://" ++ host ++ bpath)
          job build apath).data).netloc
        = (user ++ ":" ++ token ++ "@" ++ host).data
    ∧ (urlsplitL (jenkins_artifact_url user token (scheme ++ "://" ++ host ++ bpath)
          job build apath).data).path
        = (bpath ++ "/job/" ++ job ++ "/" ++ toString build ++ "/artifact/" ++ apath).data
    ∧ urlsplitE ((scheme ++ "://" ++ host ++ bpath) ++ "/job/" ++ job ++ "/"
          ++ toString build ++ "/artifact/" ++ apath).data
        = Except.ok (urlsplitL ((scheme ++ "://" ++ host ++ bpath) ++ "/job/" ++ job ++ "/"
          ++ toString build ++ "/artifact/" ++ apath).data) := by
  have hcolon3 : ("://" : String).data = [':', '/', '/'] := rfl
  have hjobLit : ("/job/" : String).data = ['/', 'j', 'o', 'b', '/'] := rfl
  have hslash : ("/" : String).data = ['/'] := rfl
  have hartLit : ("/artifact/" : String).data =
    ['/', 'a', 'r', 't', 'i', 'f', 'a', 'c', 't', '/'] := rfl
  -- the path part appended after the authority
  have hPshape : (bpath.data ++ (['/', 'j', 'o', 'b', '/'] ++ (job.data ++ (['/'] ++
        ((toString build).data ++ (['/', 'a', 'r', 't', 'i', 'f', 'a', 'c', 't', '/']
          ++ apath.data)))))) = []
      ∨ ∃ r, (bpath.data ++ (['/', 'j', 'o', 'b', '/'] ++ (job.data ++ (['/'] ++
        ((toString build).data ++ (['/', 'a', 'r', 't', 'i', 'f', 'a', 'c', 't', '/']
          ++ apath.data)))))) = '/' :: r := by
    right
    rcases hbpath with hE | ⟨r, hr⟩
    · rw [hE]
      exact ⟨_, rfl⟩
    · rw [hr]
      exact ⟨_, rfl⟩
  have hPclean : ∀ c ∈ (bpath.data ++ (['/', 'j', 'o', 'b', '/'] ++ (job.data ++ (['/'] ++
        ((toString build).data ++ (['/', 'a', 'r', 't', 'i', 'f', 'a', 'c', 't', '/']
          ++ apath.data)))))), ¬ c = '#' ∧ ¬ c = '?' := by
    intro c hc
    simp only [List.mem_append] at hc
    rcases hc with hc | hc | hc | hc | hc | hc | hc
    · exact hbp2 c hc
    · exact (by decide :
        ∀ x ∈ ['/', 'j', 'o', 'b', '/'], ¬ x = '#' ∧ ¬ x = '?') c hc
    · exact hjob c hc
    · exact (by decide : ∀ x ∈ ['/'], ¬ x = '#' ∧ ¬ x = '?') c hc
    · exact no_hash_question_of_digit (toString_nat_digits build c hc)
    · exact (by decide :
        ∀ x ∈ ['/', 'a', 'r', 't', 'i', 'f', 'a', 'c', 't', '/'], ¬ x = '#' ∧ ¬ x = '?') c hc
    · exact hapath c hc
  have hurlData : ((scheme ++ "://" ++ host ++ bpath) ++ "/job/" ++ job ++ "/"
        ++ toString build ++ "/artifact/" ++ apath).data
      = scheme.data ++ ':' :: '/' :: '/' :: (host.data ++ (bpath.data ++
          (['/', 'j', 'o', 'b', '/'] ++ (job.data ++ (['/'] ++ ((toString build).data ++
            (['/', 'a', 'r', 't', 'i', 'f', 'a', 'c', 't', '/'] ++ apath.data))))))) := by
    simp [sdata_append, hcolon3, hjobLit, hslash, hartLit]
  have hsplit := urlsplitL_of_shape scheme.data host.data
    (bpath.data ++ (['/', 'j', 'o', 'b', '/'] ++ (job.data ++ (['/'] ++
      ((toString build).data ++ (['/', 'a', 'r', 't', 'i', 'f', 'a', 'c', 't', '/']
        ++ apath.data))))))
    hs1 hs2 hhost hPshape hPclean
  have hnetlocClean : ∀ c ∈ user.data ++ ':' :: token.data ++ '@' :: host.data,
      netlocDelim c = false := by
    intro c hc
    simp only [List.mem_append, List.mem_cons, or_assoc] at hc
    rcases hc with hc | rfl | hc | rfl | hc
    · exact huser c hc
    · decide
    · exact htoken c hc
    · decide
    · exact hhost c hc
  have hnetlocNe : user.data ++ ':' :: token.data ++ '@' :: host.data ≠ [] := by
    simp
  have hresData : (jenkins_artifact_url user token (scheme ++ "://" ++ host ++ bpath)
        job build apath).data
      = scheme.data ++ ':' :: '/' :: '/' ::
          ((user.data ++ ':' :: token.data ++ '@' :: host.data) ++
            (bpath.data ++ (['/', 'j', 'o', 'b', '/'] ++ (job.data ++ (['/'] ++
              ((toString build).data ++ (['/', 'a', 'r', 't', 'i', 'f', 'a', 'c', 't', '/']
                ++ apath.data))))))) := by
    simp only [jenkins_artifact_url]
    rw [hurlData]
    rw [hsplit]
    dsimp only
    rw [hs3]
    rw [urlunsplitL_of_shape scheme.data (user.data ++ ':' :: token.data ++ '@' :: host.data)
      (bpath.data ++ (['/', 'j', 'o', 'b', '/'] ++ (job.data ++ (['/'] ++
        ((toString build).data ++ (['/', 'a', 'r', 't', 'i', 'f', 'a', 'c', 't', '/']
          ++ apath.data))))))
      hs1 hnetlocNe hPshape]
  have hresSplit := urlsplitL_of_shape scheme.data
    (user.data ++ ':' :: token.data ++ '@' :: host.data)
    (bpath.data ++ (['/', 'j', 'o', 'b', '/'] ++ (job.data ++ (['/'] ++
      ((toString build).data ++ (['/', 'a', 'r', 't', 'i', 'f', 'a', 'c', 't', '/']
        ++ apath.data))))))
    hs1 hs2 hnetlocClean hPshape hPclean
  refine ⟨?_, ?_, ?_, ?_⟩
  · apply string_ext
    rw [hresData]
    simp [sdata_append, hcolon3, hjobLit, hslash, hartLit]
  · rw [hresData, hresSplit]
    simp [sdata_append]
  · rw [hresData, hresSplit]
    simp [sdata_append, hjobLit, hslash, hartLit]
  · refine urlsplitE_eq_ok _ ?_
    rw [hurlData, hsplit]
    exact hbr

/-- Witness for C8 at concrete credentials, base URL, job, build and path. -/
theorem c8_jenkins_artifact_url_witness :
    jenkins_artifact_url "u" "t" ("https" ++ "://" ++ "jenkins.example.com" ++ "") "cfme" 42
        "log/coverage-results.tgz"
      = "https" ++ "://" ++ "u" ++ ":" ++ "t" ++ "@" ++ "jenkins.example.com" ++ ""
        ++ "/job/" ++ "cfme" ++ "/" ++ toString 42 ++ "/artifact/"
        ++ "log/coverage-results.tgz" :=
  (c8_jenkins_artifact_url "u" "t" "https" "jenkins.example.com" "" "cfme"
    "log/coverage-results.tgz" 42 (by decide) (by decide) (by decide) (by decide)
    (by decide) (Or.inl rfl) (by decide) (by decide) (by decide) (by decide) (by decide)).1

/-! ## C7: empty build list and empty eligible set -/

/-- C7: with credentials given, an empty build list raises `No builds for
job ...` and an empty eligible set raises `Could not find any coverage
reports ...`; in both cases the trace is empty — no orchestration step (no
service stop, download, merge or scan) was performed. -/
theorem c7_empty_failures (user token : String) (conf : Option (String × String))
    (jurl job target : String) (download : Nat → String → String) (head : String → Nat)
    (exec : Step → Bool) (builds : List BuildInfo) (logPath scanner_url server_url : String)
    (huser : user ≠ "") (htoken : token ≠ "") :
    (builds = [] →
      mainRun user token conf jurl job target download head exec builds
          logPath scanner_url server_url
        = ([], some ("No builds for job " ++ job)))
    ∧ (builds ≠ [] →
      (selectLoop target download
          (fun n p => check_artifact head user token jurl job n p) builds).1 = [] →
      mainRun user token conf jurl job target download head exec builds
          logPath scanner_url server_url
        = ([], some ("Could not find any coverage reports for " ++ target ++ " in " ++ job))) := by
  have hc : (if user = "" ∨ token = "" then conf else some (user, token))
      = some (user, token) := by
    rw [if_neg]
    push_neg
    exact ⟨huser, htoken⟩
  constructor
  · intro hb
    simp only [mainRun, hc]
    rw [if_pos hb]
  · intro hb hsel
    simp only [mainRun, hc]
    rw [if_neg hb, if_pos hsel]

/-- Witness for C7 at an empty build list and at a build list whose only
build has no artifacts. -/
theorem c7_empty_failures_witness :
    mainRun "u" "t" none "https://h" "j" "2.0" d0 h200 execOk []
        "/logs" "https://sc" "https://so"
      = ([], some ("No builds for job " ++ "j"))
    ∧ mainRun "u" "t" none "https://h" "j" "2.0" d0 h200 execOk [bNoArts]
        "/logs" "https://sc" "https://so"
      = ([], some ("Could not find any coverage reports for " ++ "2.0" ++ " in " ++ "j")) := by
  constructor
  · exact (c7_empty_failures "u" "t" none "https://h" "j" "2.0" d0 h200 execOk []
      "/logs" "https://sc" "https://so" (by decide) (by decide)).1 rfl
  · exact (c7_empty_failures "u" "t" none "https://h" "j" "2.0" d0 h200 execOk [bNoArts]
      "/logs" "https://sc" "https://so" (by decide) (by decide)).2 (by decide) (by decide)

/-! ## C4: per-build download URL -/

/-- C4 (code bug): with eligible build 2 and a lower-version build 1 that
ended the scan, the orchestrator downloads build 2's coverage archive
through a URL built from build 1's `coverage-results.tgz` relative path
(the leaked `artifacts` variable), not from build 2's own relative path,
although build 2's own artifact lists `c2path`. -/
theorem c4_download_uses_leaked_artifacts :
    Step.run (curlCmd (jenkins_artifact_url "u" "t" "https://h" "j" 2 "c1path"))
      ∈ (mainRun "u" "t" none "https://h" "j" "2.0" d0 h200 execOk [bB, bA]
          "/logs" "https://sc" "https://so").1
    ∧ Step.run (curlCmd (jenkins_artifact_url "u" "t" "https://h" "j" 2 "c2path"))
      ∉ (mainRun "u" "t" none "https://h" "j" "2.0" d0 h200 execOk [bB, bA]
          "/logs" "https://sc" "https://so").1
    ∧ (groupedArtifacts bB "coverage-results.tgz").map (fun a => a.relativePath)
        = some "c2path"
    ∧ (groupedArtifacts bA "coverage-results.tgz").map (fun a => a.relativePath)
        = some "c1path"
    ∧ jenkins_artifact_url "u" "t" "https://h" "j" 2 "c1path"
        ≠ jenkins_artifact_url "u" "t" "https://h" "j" 2 "c2path" := by
  decide

/-! ## C5: fatality of merge-and-package failures -/

/-- C5 counterexample: the symlink command of the merge phase fails, yet no
exception is raised (the run's error is `none`) and later steps — packing,
fetching the merged archive, the sonar scan — still execute. -/
theorem c5_remote_failures_cex :
    execLnFail (Step.run lnCmd) = false
    ∧ (mainRun "u" "t" none "https://h" "j" "2.0" d0 h200 execLnFail [bB, bA]
        "/logs" "https://sc" "https://so").2 = none
    ∧ Step.run lnCmd ∈ (mainRun "u" "t" none "https://h" "j" "2.0" d0 h200 execLnFail [bB, bA]
        "/logs" "https://sc" "https://so").1
    ∧ Step.run packCmd ∈ (mainRun "u" "t" none "https://h" "j" "2.0" d0 h200 execLnFail [bB, bA]
        "/logs" "https://sc" "https://so").1
    ∧ Step.getFile "/tmp/merged.tgz" "/logs"
      ∈ (mainRun "u" "t" none "https://h" "j" "2.0" d0 h200 execLnFail [bB, bA]
        "/logs" "https://sc" "https://so").1 := by
  decide

theorem mem_andThen {s : Step} {r : RunResult} {k : Unit → RunResult}
    (h : s ∈ (andThen r k).1) : s ∈ r.1 ∨ (r.2 = none ∧ s ∈ (k ()).1) := by
  rcases r with ⟨tr, e⟩
  cases e with
  | none =>
    simp only [andThen] at h
    rcases List.mem_append.mp h with h2 | h2
    · exact Or.inl h2
    · exact Or.inr ⟨rfl, h2⟩
  | some msg =>
    simp only [andThen] at h
    exact Or.inl h

theorem downloadExtractBuild_run_only (exec : Step → Bool) (u t jurl job : String)
    (v : ArtVar) (n : Nat) (s : Step)
    (h : s ∈ (downloadExtractBuild exec u t jurl job v n).1) : ∃ c, s = Step.run c := by
  unfold downloadExtractBuild at h
  rcases hv : leftoverCovPath v with _ | p
  · rw [hv] at h
    simp at h
  · rw [hv] at h
    rcases mem_andThen h with h2 | ⟨-, h2⟩
    · simp only [checkedStep, List.mem_singleton] at h2
      exact ⟨_, h2⟩
    · simp only [checkedStep, List.mem_singleton] at h2
      exact ⟨_, h2⟩

theorem downloadExtractAll_run_only (exec : Step → Bool) (u t jurl job : String)
    (v : ArtVar) (ns : List Nat) (s : Step)
    (h : s ∈ (downloadExtractAll exec u t jurl job v ns).1) : ∃ c, s = Step.run c := by
  have main : ∀ (ns : List Nat) (acc : RunResult),
      (∀ x ∈ acc.1, ∃ c, x = Step.run c) →
      ∀ x ∈ (ns.foldl (fun acc n =>
          andThen acc (fun _ => downloadExtractBuild exec u t jurl job v n)) acc).1,
        ∃ c, x = Step.run c := by
    intro ns
    induction ns with
    | nil =>
      intro acc hacc x hx
      exact hacc x hx
    | cons n rest ih =>
      intro acc hacc x hx
      refine ih _ ?_ x hx
      intro y hy
      rcases mem_andThen hy with h2 | ⟨-, h2⟩
      · exact hacc y h2
      · exact downloadExtractBuild_run_only exec u t jurl job v n y h2
  exact main ns ([], none) (by simp) s h

theorem install_sonar_scanner_shapes (exec : Step → Bool)
    (pn pv surl sdir server_url : String) (s : Step)
    (h : s ∈ (install_sonar_scanner exec pn pv surl sdir server_url).1) :
    (∃ c, s = Step.run c)
    ∨ s = Step.putFile "sonar-project.properties" "/sonar-project.properties" := by
  unfold install_sonar_scanner at h
  rcases mem_andThen h with h2 | ⟨-, h2⟩
  · simp only [checkedStep, List.mem_singleton] at h2
    exact Or.inl ⟨_, h2⟩
  rcases mem_andThen h2 with h3 | ⟨-, h3⟩
  · simp only [checkedStep, List.mem_singleton] at h3
    exact Or.inl ⟨_, h3⟩
  rcases mem_andThen h3 with h4 | ⟨-, h4⟩
  · simp only [checkedStep, List.mem_singleton] at h4
    exact Or.inl ⟨_, h4⟩
  rcases mem_andThen h4 with h5 | ⟨-, h5⟩
  · simp only [checkedStep, List.mem_singleton] at h5
    exact Or.inl ⟨_, h5⟩
  rcases mem_andThen h5 with h6 | ⟨-, h6⟩
  · simp only [checkedStep, List.mem_singleton] at h6
    exact Or.inl ⟨_, h6⟩
  rcases hg : gen_project_key pn pv with e | key
  · rw [hg] at h6
    simp at h6
  · rw [hg] at h6
    simp only [freeStep, List.mem_singleton] at h6
    exact Or.inr h6

theorem sonar_scan_shapes (exec : Step → Bool) (pn pv surl sdir server_url : String) (s : Step)
    (h : s ∈ (sonar_scan exec pn pv surl sdir server_url).1) :
    (∃ c, s = Step.run c)
    ∨ s = Step.putFile "sonar-project.properties" "/sonar-project.properties" := by
  unfold sonar_scan at h
  rcases mem_andThen h with h2 | ⟨-, h2⟩
  · exact install_sonar_scanner_shapes exec pn pv surl sdir server_url s h2
  · simp only [run_sonar_scanner, checkedStep, List.mem_singleton] at h2
    exact Or.inl ⟨_, h2⟩

theorem merge_coverage_data_fail (exec : Step → Bool)
    (h : exec (Step.runRails mergerRailsCmd) = false) :
    merge_coverage_data exec
      = ([Step.runRails mergerRailsCmd], some "Failure running the merger - ") := by
  unfold merge_coverage_data andThen checkedStep
  rw [h]
  rfl

theorem merge_coverage_data_ok (exec : Step → Bool)
    (h : exec (Step.runRails mergerRailsCmd) = true) :
    merge_coverage_data exec = ([Step.runRails mergerRailsCmd, Step.run lnCmd], none) := by
  unfold merge_coverage_data andThen checkedStep freeStep
  rw [h]
  rfl

theorem pull_merged_coverage_data_fail (exec : Step → Bool) (logPath : String)
    (h : exec (Step.run packCmd) = false) :
    pull_merged_coverage_data exec logPath
      = ([Step.run packCmd], some "Could not compress! - ") := by
  unfold pull_merged_coverage_data andThen checkedStep
  rw [h]
  rfl

theorem pull_merged_coverage_data_shapes (exec : Step → Bool) (logPath : String) (s : Step)
    (h : s ∈ (pull_merged_coverage_data exec logPath).1) :
    s = Step.run packCmd ∨ s = Step.getFile "/tmp/merged.tgz" logPath
    ∨ s = Step.localRun ("tar xf " ++ logPath ++ "/merged.tgz -C " ++ logPath) := by
  unfold pull_merged_coverage_data at h
  rcases mem_andThen h with h2 | ⟨-, h2⟩
  · simp only [checkedStep, List.mem_singleton] at h2
    exact Or.inl h2
  rcases mem_andThen h2 with h3 | ⟨-, h3⟩
  · simp only [freeStep, List.mem_singleton] at h3
    exact Or.inr (Or.inl h3)
  · simp only [checkedStep, List.mem_singleton] at h3
    exact Or.inr (Or.inr h3)

/-- Every step of a `mainRun` trace is an appliance step, a shell command, or
comes from the pull/sonar phases — and the latter only after the preceding
phase finished without raising. -/
theorem mainRun_mem (user token : String) (conf : Option (String × String))
    (jurl job target : String) (download : Nat → String → String) (head : String → Nat)
    (exec : Step → Bool) (builds : List BuildInfo) (logPath scanner_url server_url : String)
    (s : Step)
    (hs : s ∈ (mainRun user token conf jurl job target download head exec builds
        logPath scanner_url server_url).1) :
    s = Step.stopEvm ∨ s = Step.installSimplecov ∨ s = Step.uploadMerger
    ∨ (∃ c, s = Step.run c) ∨ (∃ c, s = Step.runRails c)
    ∨ ((merge_coverage_data exec).2 = none
        ∧ s ∈ (pull_merged_coverage_data exec logPath).1)
    ∨ ((merge_coverage_data exec).2 = none
        ∧ (pull_merged_coverage_data exec logPath).2 = none
        ∧ s ∈ (sonar_scan exec "CFME" target scanner_url scanner_dir server_url).1) := by
  simp only [mainRun] at hs
  rcases hcr : (if user = "" ∨ token = "" then conf else some (user, token)) with _ | ⟨u, t⟩
  · rw [hcr] at hs
    simp at hs
  · rw [hcr] at hs
    dsimp only at hs
    by_cases hb : builds = []
    · rw [if_pos hb] at hs
      simp at hs
    · rw [if_neg hb] at hs
      by_cases hsel : (selectLoop target download
          (fun n p => check_artifact head u t jurl job n p) builds).1 = []
      · rw [if_pos hsel] at hs
        simp at hs
      · rw [if_neg hsel] at hs
        rcases mem_andThen hs with h1 | ⟨-, h1⟩
        · simp only [freeStep, List.mem_singleton] at h1
          exact Or.inl h1
        rcases mem_andThen h1 with h2 | ⟨-, h2⟩
        · simp only [freeStep, List.mem_singleton] at h2
          exact Or.inr (Or.inl h2)
        rcases mem_andThen h2 with h3 | ⟨-, h3⟩
        · simp only [freeStep, List.mem_singleton] at h3
          exact Or.inr (Or.inr (Or.inl h3))
        rcases mem_andThen h3 with h4 | ⟨-, h4⟩
        · simp only [checkedStep, List.mem_singleton] at h4
          exact Or.inr (Or.inr (Or.inr (Or.inl ⟨_, h4⟩)))
        rcases mem_andThen h4 with h5 | ⟨-, h5⟩
        · exact Or.inr (Or.inr (Or.inr (Or.inl
            (downloadExtractAll_run_only _ _ _ _ _ _ _ s h5))))
        rcases mem_andThen h5 with h6 | ⟨hm, h6⟩
        · unfold merge_coverage_data at h6
          rcases mem_andThen h6 with h7 | ⟨-, h7⟩
          · simp only [checkedStep, List.mem_singleton] at h7
            exact Or.inr (Or.inr (Or.inr (Or.inr (Or.inl ⟨_, h7⟩))))
          · simp only [freeStep, List.mem_singleton] at h7
            exact Or.inr (Or.inr (Or.inr (Or.inl ⟨_, h7⟩)))
        rcases mem_andThen h6 with h7 | ⟨hp, h7⟩
        · exact Or.inr (Or.inr (Or.inr (Or.inr (Or.inr (Or.inl ⟨hm, h7⟩)))))
        · exact Or.inr (Or.inr (Or.inr (Or.inr (Or.inr (Or.inr ⟨hm, hp, h7⟩)))))

/-- C5 amended: the merger command's failure and the packing command's
failure each raise immediately, and nothing later in the run executes; the
symlink command's result, however, is never examined — its failure raises
nothing (see the counterexample). -/
theorem c5_remote_failures_amended (exec : Step → Bool) (logPath : String) :
    (exec (Step.runRails mergerRailsCmd) = false →
      merge_coverage_data exec
        = ([Step.runRails mergerRailsCmd], some "Failure running the merger - "))
    ∧ (exec (Step.runRails mergerRailsCmd) = true →
      merge_coverage_data exec = ([Step.runRails mergerRailsCmd, Step.run lnCmd], none))
    ∧ (exec (Step.run packCmd) = false →
      pull_merged_coverage_data exec logPath
        = ([Step.run packCmd], some "Could not compress! - "))
    ∧ ∀ (user token : String) (conf : Option (String × String)) (jurl job target : String)
        (download : Nat → String → String) (head : String → Nat) (builds : List BuildInfo)
        (scanner_url server_url : String),
        (exec (Step.runRails mergerRailsCmd) = false →
          Step.getFile "/tmp/merged.tgz" logPath
            ∉ (mainRun user token conf jurl job target download head exec builds
                logPath scanner_url server_url).1
          ∧ Step.putFile "sonar-project.properties" "/sonar-project.properties"
            ∉ (mainRun user token conf jurl job target download head exec builds
                logPath scanner_url server_url).1)
        ∧ (exec (Step.run packCmd) = false →
          Step.putFile "sonar-project.properties" "/sonar-project.properties"
            ∉ (mainRun user token conf jurl job target download head exec builds
                logPath scanner_url server_url).1) := by
  refine ⟨merge_coverage_data_fail exec, merge_coverage_data_ok exec,
    pull_merged_coverage_data_fail exec logPath, ?_⟩
  intro user token conf jurl job target download head builds scanner_url server_url
  constructor
  · intro hrails
    constructor
    · intro hmem
      rcases mainRun_mem user token conf jurl job target download head exec builds
          logPath scanner_url server_url _ hmem with
        h | h | h | ⟨c, h⟩ | ⟨c, h⟩ | ⟨hm, h⟩ | ⟨hm, hp, h⟩
      · exact Step.noConfusion h
      · exact Step.noConfusion h
      · exact Step.noConfusion h
      · exact Step.noConfusion h
      · exact Step.noConfusion h
      · rw [merge_coverage_data_fail exec hrails] at hm
        exact Option.noConfusion hm
      · rw [merge_coverage_data_fail exec hrails] at hm
        exact Option.noConfusion hm
    · intro hmem
      rcases mainRun_mem user token conf jurl job target download head exec builds
          logPath scanner_url server_url _ hmem with
        h | h | h | ⟨c, h⟩ | ⟨c, h⟩ | ⟨hm, h⟩ | ⟨hm, hp, h⟩
      · exact Step.noConfusion h
      · exact Step.noConfusion h
      · exact Step.noConfusion h
      · exact Step.noConfusion h
      · exact Step.noConfusion h
      · rw [merge_coverage_data_fail exec hrails] at hm
        exact Option.noConfusion hm
      · rw [merge_coverage_data_fail exec hrails] at hm
        exact Option.noConfusion hm
  · intro hpack
    intro hmem
    rcases mainRun_mem user token conf jurl job target download head exec builds
        logPath scanner_url server_url _ hmem with
      h | h | h | ⟨c, h⟩ | ⟨c, h⟩ | ⟨hm, h⟩ | ⟨hm, hp, h⟩
    · exact Step.noConfusion h
    · exact Step.noConfusion h
    · exact Step.noConfusion h
    · exact Step.noConfusion h
    · exact Step.noConfusion h
    · rcases pull_merged_coverage_data_shapes exec logPath _ h with h2 | h2 | h2
      · exact Step.noConfusion h2
      · exact Step.noConfusion h2
      · exact Step.noConfusion h2
    · rw [pull_merged_coverage_data_fail exec logPath hpack] at hp
      exact Option.noConfusion hp

/-- Witness for C5 (amended) with a command oracle failing on the merger. -/
theorem c5_remote_failures_amended_witness :
    merge_coverage_data execRailsFail
      = ([Step.runRails mergerRailsCmd], some "Failure running the merger - ")
    ∧ Step.getFile "/tmp/merged.tgz" "/logs"
      ∉ (mainRun "u" "t" none "https://h" "j" "2.0" d0 h200 execRailsFail [bB, bA]
          "/logs" "https://sc" "https://so").1 := by
  have h := c5_remote_failures_amended execRailsFail "/logs"
  exact ⟨h.1 (by decide),
    ((h.2.2.2 "u" "t" none "https://h" "j" "2.0" d0 h200 [bB, bA]
      "https://sc" "https://so").1 (by decide)).1⟩
